import Mathlib

/-!
Verification of the TrustBuild mobile shell's navigation-routing and
message-bridge subsystem.  The definitions below are a shallow embedding of
the TypeScript source: `shouldStartLoadWithRequest` and
`handleWebViewMessage` from the main application component, the
`secureStorage` / `appStorage` services, the injected bridge script, and the
token re-injection template of `handleLoadEnd`.  Browser built-ins that the
code calls (`new URL`, `JSON.parse`, string truthiness) are modelled by
executable Lean functions that follow the JavaScript semantics on the
fragment the application exercises; each model notes its approximations.
-/

namespace TrustBuild

/-! ## Generic character-list helpers -/

/-- Prefix test on strings, executed on the underlying character lists.
Models JavaScript `String.prototype.startsWith`. -/
def strStartsWith (s p : String) : Bool :=
  p.data.isPrefixOf s.data

/-- Suffix test on strings, executed on the underlying character lists.
Models JavaScript `String.prototype.endsWith`. -/
def strEndsWith (s p : String) : Bool :=
  p.data.isSuffixOf s.data

/-- Remove an expected leading character sequence, returning the remainder,
or `none` when the sequence is not present. -/
def stripPrefixL : List Char → List Char → Option (List Char)
  | [], l => some l
  | _ :: _, [] => none
  | p :: ps, c :: cs => if p = c then stripPrefixL ps cs else none

/-! ## Model of the WHATWG `new URL` constructor

The policy code only inspects `url.protocol`-adjacent prefixes and
`url.hostname`, so the model extracts the scheme and the hostname.
Approximations relative to the full WHATWG algorithm, none of which the
navigation policy is sensitive to: the scheme and hostname are kept verbatim
(no ASCII lowercasing, no punycode), IPv6 bracket hosts are not recognised,
and a relative base argument is not modelled (the source always calls
`new URL` with a single absolute argument). -/

structure URLRec where
  scheme : String
  hostname : String
deriving DecidableEq, Repr

/-- A scheme is one or more characters starting with a letter, continuing
with letters, digits, `+`, `-` or `.` (WHATWG scheme grammar). -/
def schemeTailChar (c : Char) : Bool :=
  c.isAlpha || c.isDigit || c == '+' || c == '-' || c == '.'

def validSchemeChars : List Char → Bool
  | [] => false
  | c :: cs => c.isAlpha && cs.all schemeTailChar

def notColon (c : Char) : Bool := c != ':'

/-- Split `scheme:rest` at the first colon, validating the scheme. -/
def splitScheme (l : List Char) : Option (List Char × List Char) :=
  match l.dropWhile notColon with
  | ':' :: rest =>
    if validSchemeChars (l.takeWhile notColon) then some (l.takeWhile notColon, rest) else none
  | _ => none

/-- Characters that terminate the authority component. -/
def authorityEnd (c : Char) : Bool :=
  c == '/' || c == '?' || c == '#'

/-- Extract the hostname from an authority string: drop `userinfo@`
(everything up to the last `@`) and a `:port` suffix. -/
def hostOfAuthority (auth : List Char) : List Char :=
  let afterUser :=
    if auth.contains '@' then (auth.reverse.takeWhile (fun c => c ≠ '@')).reverse
    else auth
  afterUser.takeWhile (fun c => c ≠ ':')

/-- The hostname of the part of a URL following `scheme:`.  Special
(`http`/`https`) schemes tolerate any number of slashes after the colon and
require a non-empty host, as in the WHATWG algorithm; other schemes parse an
authority only after a literal `//`. -/
def hostAfterScheme (scheme : String) (rest : List Char) : Option String :=
  if scheme = "http" ∨ scheme = "https" then
    let afterSlashes := rest.dropWhile (fun c => c == '/')
    let host := hostOfAuthority (afterSlashes.takeWhile (fun c => !authorityEnd c))
    if host.isEmpty then none else some ⟨host⟩
  else
    match rest with
    | '/' :: '/' :: r => some ⟨hostOfAuthority (r.takeWhile (fun c => !authorityEnd c))⟩
    | _ => some ""

/-- Model of `new URL(input)` restricted to the fields the application
reads; `none` models the constructor throwing. -/
def parseURL (s : String) : Option URLRec :=
  match splitScheme s.data with
  | none => none
  | some (schemeChars, rest) =>
    (hostAfterScheme ⟨schemeChars⟩ rest).map (fun h => ⟨⟨schemeChars⟩, h⟩)

/-! ## Navigation policy (`shouldStartLoadWithRequest`) -/

/-- Shell-side configuration (`config.ts`): the web application URL and the
API URL.  The remaining `config` fields play no part in the navigation or
dispatch logic. -/
structure Config where
  webAppUrl : String
  apiUrl : String
deriving DecidableEq, Repr

/-- The production configuration from `config.ts`. -/
def prodConfig : Config := ⟨"https://trustbuild.uk", "https://api.trustbuild.uk"⟩

/-- The development configuration from `config.ts`. -/
def devConfig : Config := ⟨"http://localhost:3000", "http://localhost:3001"⟩

/-- `hostname.replace(/^www\./, '')`: strip one leading `www.` label. -/
def stripWww (h : String) : String :=
  if strStartsWith h "www." then ⟨h.data.drop 4⟩ else h

/-- Domain match used by the navigation policy: equality or a dot-separated
subdomain suffix (`requestDomain === d || requestDomain.endsWith('.' + d)`). -/
def hostMatches (host dom : String) : Bool :=
  host == dom || strEndsWith host ("." ++ dom)

/-- The full trusted-host disjunction of `shouldStartLoadWithRequest`:
app domain, api domain, localhost/loopback, the Stripe allow-list and the
Google allow-list.  `appDomain`/`apiDomain` are already `www.`-stripped;
`hostname` is the raw request hostname. -/
def isTrustedRequest (appDomain apiDomain hostname : String) : Bool :=
  (stripWww hostname == appDomain || strEndsWith (stripWww hostname) ("." ++ appDomain) ||
   stripWww hostname == apiDomain || strEndsWith (stripWww hostname) ("." ++ apiDomain)) ||
  (hostname == "localhost" || hostname == "127.0.0.1") ||
  (stripWww hostname == "js.stripe.com" || stripWww hostname == "checkout.stripe.com" ||
   strEndsWith (stripWww hostname) ".stripe.com" || stripWww hostname == "stripe.com") ||
  (stripWww hostname == "accounts.google.com" ||
   strEndsWith (stripWww hostname) ".google.com")

/-- Domain-classifier categories (spec §4.1). -/
inductive Classification where
  | SAME_ORIGIN
  | TRUSTED
  | EXTERNAL
deriving DecidableEq, Repr

/-- Domain classifier: the same conditions as `isTrustedRequest`, presented
as the three-way categorisation of spec §4.1 (application domain and
loopback are SAME_ORIGIN; API domain, Stripe and Google are TRUSTED). -/
def classify (appDomain apiDomain hostname : String) : Classification :=
  if stripWww hostname == appDomain || strEndsWith (stripWww hostname) ("." ++ appDomain) then
    .SAME_ORIGIN
  else if hostname == "localhost" || hostname == "127.0.0.1" then
    .SAME_ORIGIN
  else if stripWww hostname == apiDomain ||
      strEndsWith (stripWww hostname) ("." ++ apiDomain) then
    .TRUSTED
  else if stripWww hostname == "js.stripe.com" ||
      stripWww hostname == "checkout.stripe.com" ||
      strEndsWith (stripWww hostname) ".stripe.com" ||
      stripWww hostname == "stripe.com" then
    .TRUSTED
  else if stripWww hostname == "accounts.google.com" ||
      strEndsWith (stripWww hostname) ".google.com" then
    .TRUSTED
  else
    .EXTERNAL

/-- Side effects the shell can perform. -/
inductive Effect where
  | secureSet (key value : String)
  | secureDelete (key : String)
  | asyncRemove (keys : List String)
  | openURL (url : String)
  | injectJS (script : String)
  | pushTokenToServer (token : String)
  | shareOS (url text : Option String)
  | log (msg : String)
deriving DecidableEq, Repr

/-- The navigation decision hook.  Returns the boolean handed back to the
embedded browser (`true` = load in the surface) together with the side
effects performed while deciding.  Mirrors the source branch for branch:
scheme whitelist, device-handler schemes with an immediate
`Linking.openURL`, the trusted-domain checks inside the `try` block, the
`catch` that warns and returns `true`, and the final `http(s)` delegation. -/
def shouldStartLoadWithRequest (cfg : Config) (url : String) : Bool × List Effect :=
  if strStartsWith url "about:" || strStartsWith url "blob:" || strStartsWith url "data:" then
    (true, [])
  else if strStartsWith url "tel:" || strStartsWith url "mailto:" || strStartsWith url "sms:" then
    (false, [Effect.openURL url])
  else
    match parseURL url with
    | none => (true, [Effect.log "Failed to parse URL"])
    | some requestUrl =>
      match parseURL cfg.webAppUrl with
      | none => (true, [Effect.log "Failed to parse URL"])
      | some appUrl =>
        match parseURL cfg.apiUrl with
        | none => (true, [Effect.log "Failed to parse URL"])
        | some apiUrl =>
          if isTrustedRequest (stripWww appUrl.hostname) (stripWww apiUrl.hostname)
              requestUrl.hostname then
            (true, [])
          else if strStartsWith url "http://" || strStartsWith url "https://" then
            (false, [Effect.openURL url])
          else
            (true, [])

/-! ## Model of `JSON.parse`

`handleWebViewMessage` begins with `JSON.parse(event.nativeEvent.data)`;
a throw there is caught by the handler's `catch`.  The model below parses
JSON text into a `JValue`, returning `none` where `JSON.parse` throws.
Approximations: the number grammar is a permissive superset of JSON's (the
dispatcher never inspects number syntax), and `\uXXXX` escapes decode to a
single character without surrogate-pair combination (invalid scalar values
become NUL via `Char.ofNat`). -/

inductive JValue where
  | jnull
  | jbool (b : Bool)
  | jnum (raw : String)
  | jstr (s : String)
  | jarr (elems : List JValue)
  | jobj (fields : List (String × JValue))
deriving Repr

def jsonWs (c : Char) : Bool :=
  c == ' ' || c == '\t' || c == '\n' || c == '\r'

def skipWs (l : List Char) : List Char := l.dropWhile jsonWs

def hexVal (c : Char) : Option Nat :=
  if c.isDigit then some (c.toNat - '0'.toNat)
  else if 'a' ≤ c ∧ c ≤ 'f' then some (c.toNat - 'a'.toNat + 10)
  else if 'A' ≤ c ∧ c ≤ 'F' then some (c.toNat - 'A'.toNat + 10)
  else none

/-- The two-character JSON escapes, as pairs of source character and
decoded character. -/
def jsonEscPairs : List (Char × Char) :=
  [('"', '"'), ('\\', '\\'), ('/', '/'), ('b', Char.ofNat 8), ('f', Char.ofNat 12),
   ('n', '\n'), ('r', '\r'), ('t', '\t')]

def jsonEscMap (c : Char) : Option Char :=
  (jsonEscPairs.find? (fun pr => pr.1 == c)).map (fun pr => pr.2)

/-- Body of a JSON string literal, after the opening quote: the decoded
characters and the remainder after the closing quote. -/
def parseStringBody : Nat → List Char → Option (List Char × List Char)
  | 0, _ => none
  | _, [] => none
  | fuel + 1, c :: rest =>
    if c == '"' then some ([], rest)
    else if c == '\\' then
      match rest with
      | [] => none
      | e :: rest2 =>
        if e == 'u' then
          match rest2 with
          | a :: b :: c3 :: d :: rest3 =>
            match hexVal a, hexVal b, hexVal c3, hexVal d with
            | some x1, some x2, some x3, some x4 =>
              match parseStringBody fuel rest3 with
              | some (sChars, r) =>
                some (Char.ofNat (((x1 * 16 + x2) * 16 + x3) * 16 + x4) :: sChars, r)
              | none => none
            | _, _, _, _ => none
          | _ => none
        else
          match jsonEscMap e with
          | some ch =>
            match parseStringBody fuel rest2 with
            | some (sChars, r) => some (ch :: sChars, r)
            | none => none
          | none => none
    else if c.toNat < 32 then none
    else
      match parseStringBody fuel rest with
      | some (sChars, r) => some (c :: sChars, r)
      | none => none

def numChar (c : Char) : Bool :=
  c.isDigit || c == '-' || c == '+' || c == '.' || c == 'e' || c == 'E'

/-- JSON number lexeme, kept as raw text. -/
def parseNumberLit (l : List Char) : Option (String × List Char) :=
  match l.takeWhile numChar with
  | [] => none
  | c :: cs =>
    if (c.isDigit || c == '-') && (c :: cs).any (fun x => x.isDigit) then
      some (⟨c :: cs⟩, l.dropWhile numChar)
    else none

mutual

def parseValue : Nat → List Char → Option (JValue × List Char)
  | 0, _ => none
  | fuel + 1, l =>
    match skipWs l with
    | [] => none
    | c :: rest =>
      if c == '"' then
        match parseStringBody fuel rest with
        | some (sChars, r) => some (.jstr ⟨sChars⟩, r)
        | none => none
      else if c == '\x7b' then parseObj fuel rest
      else if c == '[' then parseArr fuel rest
      else if c == 't' then
        match stripPrefixL ['r', 'u', 'e'] rest with
        | some r => some (.jbool true, r)
        | none => none
      else if c == 'f' then
        match stripPrefixL ['a', 'l', 's', 'e'] rest with
        | some r => some (.jbool false, r)
        | none => none
      else if c == 'n' then
        match stripPrefixL ['u', 'l', 'l'] rest with
        | some r => some (.jnull, r)
        | none => none
      else
        match parseNumberLit (c :: rest) with
        | some (raw, r) => some (.jnum raw, r)
        | none => none

/-- Array contents after the opening bracket. -/
def parseArr : Nat → List Char → Option (JValue × List Char)
  | 0, _ => none
  | fuel + 1, l =>
    match skipWs l with
    | ']' :: rest => some (.jarr [], rest)
    | _ =>
      match parseElems fuel l with
      | some (es, r) => some (.jarr es, r)
      | none => none

def parseElems : Nat → List Char → Option (List JValue × List Char)
  | 0, _ => none
  | fuel + 1, l =>
    match parseValue fuel l with
    | none => none
    | some (v, r) =>
      match skipWs r with
      | ',' :: r2 =>
        match parseElems fuel r2 with
        | some (es, r3) => some (v :: es, r3)
        | none => none
      | ']' :: r2 => some ([v], r2)
      | _ => none

/-- Object contents after the opening brace. -/
def parseObj : Nat → List Char → Option (JValue × List Char)
  | 0, _ => none
  | fuel + 1, l =>
    match skipWs l with
    | '\x7d' :: rest => some (.jobj [], rest)
    | _ =>
      match parseFields fuel l with
      | some (fs, r) => some (.jobj fs, r)
      | none => none

def parseFields : Nat → List Char → Option (List (String × JValue) × List Char)
  | 0, _ => none
  | fuel + 1, l =>
    match skipWs l with
    | '"' :: rest =>
      match parseStringBody fuel rest with
      | none => none
      | some (kChars, r) =>
        match skipWs r with
        | ':' :: r2 =>
          match parseValue fuel r2 with
          | none => none
          | some (v, r3) =>
            match skipWs r3 with
            | ',' :: r4 =>
              match parseFields fuel r4 with
              | some (fs, r5) => some ((⟨kChars⟩, v) :: fs, r5)
              | none => none
            | '\x7d' :: r4 => some ([(⟨kChars⟩, v)], r4)
            | _ => none
        | _ => none
    | _ => none

end

/-- `JSON.parse`: parse a complete value with only whitespace around it. -/
def jsonParse (s : String) : Option JValue :=
  match parseValue (2 * s.length + 4) s.data with
  | some (v, rest) => if skipWs rest = [] then some v else none
  | none => none

/-! ## JavaScript value semantics used by the dispatcher -/

/-- Object field lookup; `JSON.parse` keeps the last duplicate key. -/
def objGet (fields : List (String × JValue)) (k : String) : Option JValue :=
  ((fields.filter (fun f => f.1 == k)).getLast?).map (fun f => f.2)

/-- Plain property access `j.k`: `TypeError` on `null` (modelled as
`Except.error`), `undefined` (`none`) on other non-objects. -/
def getProp : JValue → String → Except Unit (Option JValue)
  | .jnull, _ => .error ()
  | .jobj fs, k => .ok (objGet fs k)
  | _, _ => .ok none

/-- Optional-chained access `v?.k`: `undefined` instead of throwing. -/
def optChain (v : Option JValue) (k : String) : Option JValue :=
  match v with
  | some (.jobj fs) => objGet fs k
  | _ => none

/-- A JSON number is truthy unless its value is zero; the mantissa of a
JSON lexeme is zero exactly when it has no nonzero digit. -/
def jnumTruthy (raw : String) : Bool :=
  (raw.data.takeWhile (fun c => c != 'e' && c != 'E')).any
    (fun c => c.isDigit && c != '0')

/-- JavaScript truthiness of a possibly-undefined value. -/
def truthy : Option JValue → Bool
  | none => false
  | some .jnull => false
  | some (.jbool b) => b
  | some (.jstr s) => !(s == "")
  | some (.jnum raw) => jnumTruthy raw
  | some (.jarr _) => true
  | some (.jobj _) => true

/-- String coercion used inside template literals.  Arrays coerce by
joining their elements; the empty-string result for arrays is an
approximation sufficient here, as the dispatcher only templates payload
fields that are strings in every claim under analysis. -/
def jsToString : JValue → String
  | .jstr s => s
  | .jnum raw => raw
  | .jbool b => if b then "true" else "false"
  | .jnull => "null"
  | .jarr _ => ""
  | .jobj _ => "[object Object]"

/-! ## Shell-side stores, faults and the message dispatcher

`secureStorage` (expo-secure-store) holds the `auth_token` and
`refresh_token` keys; `appStorage` (AsyncStorage) holds `user_data` and
`push_token`.  `Faults` injects failures of the individual underlying
store calls, modelling the "one store call fails" scenarios of the spec;
a failed delete leaves the stored value in place and the wrapper logs the
error.  `ShellState.authToken` is the React in-memory mirror managed by
`setAuthToken`. -/

structure Stores where
  secureAuth : Option String
  secureRefresh : Option String
  userData : Option String
  pushToken : Option String
deriving DecidableEq, Repr

structure Faults where
  failSetAuth : Bool
  failDeleteAuth : Bool
  failDeleteRefresh : Bool
  failRemoveUser : Bool
  failRemovePush : Bool
deriving DecidableEq, Repr

def noFaults : Faults := ⟨false, false, false, false, false⟩

structure ShellState where
  stores : Stores
  authToken : Option String
deriving DecidableEq, Repr

/-- A populated state used as a concrete test fixture. -/
def st0 : ShellState := ⟨⟨some "tok", some "ref", some "usr", some "push-1"⟩, some "tok"⟩

/-- `secureStorage.clearAll`: `Promise.all` over both `deleteItemAsync`
calls — both deletions are started, so one failing does not stop the
other — wrapped in a `try`/`catch` that logs and absorbs any failure. -/
def secureStorageClearAll (f : Faults) (s : Stores) : Stores × List Effect :=
  (⟨if f.failDeleteAuth then s.secureAuth else none,
    if f.failDeleteRefresh then s.secureRefresh else none,
    s.userData, s.pushToken⟩,
   (if f.failDeleteAuth then [] else [Effect.secureDelete "auth_token"]) ++
   (if f.failDeleteRefresh then [] else [Effect.secureDelete "refresh_token"]) ++
   (if f.failDeleteAuth || f.failDeleteRefresh then
      [Effect.log "Failed to clear secure storage"] else []))

/-- `appStorage.clearAll`: `AsyncStorage.multiRemove` over both keys in a
`try`/`catch` that logs and absorbs failures; removal is modelled per key. -/
def appStorageClearAll (f : Faults) (s : Stores) : Stores × List Effect :=
  (⟨s.secureAuth, s.secureRefresh,
    if f.failRemoveUser then s.userData else none,
    if f.failRemovePush then s.pushToken else none⟩,
   [Effect.asyncRemove ["user_data", "push_token"]] ++
   (if f.failRemoveUser || f.failRemovePush then
      [Effect.log "Failed to clear app storage"] else []))

/-- The `AUTH_TOKEN` arm.  `secureStorage.setAuthToken` rethrows on
failure, and `SecureStore.setItemAsync` rejects non-string values, so a
truthy non-string token also lands in the outer `catch`; on success the
React mirror is updated and, when a push token is stored, it is
(re)registered with the server (`sendPushTokenToServer` never throws). -/
def handleAuthToken (f : Faults) (st : ShellState) (payload : Option JValue) :
    Except (ShellState × List Effect) (ShellState × List Effect) :=
  if truthy (optChain payload "token") then
    match optChain payload "token" with
    | some (.jstr s) =>
      if f.failSetAuth then
        .error (st, [Effect.log "Failed to save auth token"])
      else
        let st1 : ShellState :=
          ⟨⟨some s, st.stores.secureRefresh, st.stores.userData, st.stores.pushToken⟩, some s⟩
        match st1.stores.pushToken with
        | some pt => .ok (st1, [Effect.secureSet "auth_token" s, Effect.pushTokenToServer pt])
        | none => .ok (st1, [Effect.secureSet "auth_token" s])
    | _ => .error (st, [Effect.log "Failed to save auth token"])
  else
    .ok (st, [])

/-- The `switch (message.type)` body of `handleWebViewMessage`, acting on a
successfully parsed message value.  `Except.error` carries the state and
effects at the point an exception escapes to the surrounding `catch`.
The `webViewRef.current` guard of the NAVIGATE arm is modelled as the
reference being present (it is mounted for the component's lifetime). -/
def handleParsedMessage (f : Faults) (st : ShellState) (msg : JValue) :
    Except (ShellState × List Effect) (ShellState × List Effect) :=
  match getProp msg "type" with
  | .error _ => .error (st, [])
  | .ok t =>
    match t with
    | some (.jstr ty) =>
      if ty == "AUTH_TOKEN" then
        handleAuthToken f st (optChain (some msg) "payload")
      else if ty == "LOGOUT" then
        let r1 := secureStorageClearAll f st.stores
        let r2 := appStorageClearAll f r1.1
        .ok (⟨r2.1, none⟩, r1.2 ++ r2.2)
      else if ty == "SHARE" then
        if truthy (optChain (optChain (some msg) "payload") "url") ||
            truthy (optChain (optChain (some msg) "payload") "text") then
          .ok (st, [Effect.log "Share requested"])
        else
          .ok (st, [])
      else if ty == "OPEN_EXTERNAL" then
        match optChain (optChain (some msg) "payload") "url" with
        | some v =>
          if truthy (some v) then .ok (st, [Effect.openURL (jsToString v)])
          else .ok (st, [])
        | none => .ok (st, [])
      else if ty == "NAVIGATE" then
        match optChain (optChain (some msg) "payload") "url" with
        | some v =>
          if truthy (some v) then
            .ok (st, [Effect.injectJS ("window.location.href = '" ++ jsToString v ++ "'")])
          else .ok (st, [])
        | none => .ok (st, [])
      else
        .ok (st, [Effect.log "Unknown message type"])
    | _ => .ok (st, [Effect.log "Unknown message type"])

/-- `handleWebViewMessage`: parse the raw posted string, dispatch, and let
the outer `catch` absorb any throw with an error log.  Total by
construction — the dispatcher never propagates an exception. -/
def handleWebViewMessage (f : Faults) (st : ShellState) (raw : String) :
    ShellState × List Effect :=
  match jsonParse raw with
  | none => (st, [Effect.log "Failed to parse WebView message"])
  | some msg =>
    match handleParsedMessage f st msg with
    | .ok r => r
    | .error (st2, effs) => (st2, effs ++ [Effect.log "Failed to parse WebView message"])

/-- Dispatch of an already-parsed message value, with the same `catch`
wrapper as `handleWebViewMessage`. -/
def dispatchValue (f : Faults) (st : ShellState) (msg : JValue) : ShellState × List Effect :=
  match handleParsedMessage f st msg with
  | .ok r => r
  | .error (st2, effs) => (st2, effs ++ [Effect.log "Failed to parse WebView message"])

/-! ## The injected bridge script's storage wrapping

`injectedJavaScript` rebinds `localStorage.setItem` (and `removeItem`) to a
wrapper that forwards an envelope for the `auth_token` key and then calls
the previously bound function.  The script has no execution marker, so each
execution within one page context adds one wrapping layer around whatever
is currently bound.  `BridgeFn` is the current binding: `base` is the
native implementation, `wrapped inner` the result of one script execution
over binding `inner`. -/

inductive BridgeFn where
  | base
  | wrapped (inner : BridgeFn)
deriving DecidableEq, Repr

inductive PageEffect where
  | storageWrite (key value : String)
  | storageRemove (key : String)
  | postAuthToken (token : String)
  | postLogout
deriving DecidableEq, Repr

/-- One execution of the bridge script: `const originalSetItem =
localStorage.setItem.bind(localStorage); localStorage.setItem = function
...` — the current binding becomes the wrapped one. -/
def injectBridge : BridgeFn → BridgeFn := .wrapped

def iterInject : Nat → BridgeFn → BridgeFn
  | 0, g => g
  | n + 1, g => injectBridge (iterInject n g)

/-- Calling `localStorage.setItem(k, v)` under binding `g`: each wrapper
posts an `AUTH_TOKEN` envelope when `k === 'auth_token'` and then calls the
function it captured; the base binding performs the storage write. -/
def runSetItem : BridgeFn → String → String → List PageEffect
  | .base, k, v => [.storageWrite k v]
  | .wrapped inner, k, v =>
    (if k == "auth_token" then [PageEffect.postAuthToken v] else []) ++ runSetItem inner k v

/-- Calling `localStorage.removeItem(k)` under binding `g`: each wrapper
posts a `LOGOUT` envelope when `k === 'auth_token'`. -/
def runRemoveItem : BridgeFn → String → List PageEffect
  | .base, k => [.storageRemove k]
  | .wrapped inner, k =>
    (if k == "auth_token" then [PageEffect.postLogout] else []) ++ runRemoveItem inner k

def isAuthPost : PageEffect → Bool
  | .postAuthToken _ => true
  | _ => false

def isLogoutPost : PageEffect → Bool
  | .postLogout => true
  | _ => false

def isStorageWrite : PageEffect → Bool
  | .storageWrite _ _ => true
  | _ => false

def isStorageRemove : PageEffect → Bool
  | .storageRemove _ => true
  | _ => false

/-! ## Token re-injection templating (`handleLoadEnd`)

On load end the shell injects
`localStorage.setItem('auth_token', '${authToken}');` with the stored
token spliced verbatim between the single quotes — there is no escaping
step.  `storedTokenOfScript` reads the generated text back the way a
JavaScript engine would: it accepts the fixed surrounding program text and
decodes the single-quoted string literal (backslash escapes, with a raw
newline terminating the literal as a syntax error).  It yields the value
the generated program actually assigns, or `none` when the text is not the
expected single assignment (a syntax error or an injected extra statement). -/

def tokenScriptPre : String := "localStorage.setItem('auth_token', '"

/-- The token-assignment statement generated by `handleLoadEnd`. -/
def buildTokenInjection (authToken : String) : String :=
  tokenScriptPre ++ authToken ++ "');"

/-- The `NAVIGATE` handler's generated statement, with the same verbatim
splice. -/
def buildNavigateScript (u : String) : String :=
  "window.location.href = '" ++ u ++ "'"

/-- JavaScript single-character escapes inside a string literal; characters
with no special meaning escape to themselves. -/
def jsEscMap (c : Char) : Char :=
  if c == 'n' then '\n'
  else if c == 't' then '\t'
  else if c == 'r' then '\r'
  else if c == 'b' then Char.ofNat 8
  else if c == 'f' then Char.ofNat 12
  else if c == 'v' then Char.ofNat 11
  else if c == '0' then Char.ofNat 0
  else c

/-- Decode a JavaScript single-quoted string literal body: the decoded
value and the remainder after the closing quote; `none` on a syntax error
(unterminated literal or raw line terminator). -/
def scanSingleQuoted : List Char → Option (List Char × List Char)
  | [] => none
  | c :: rest =>
    if c = '\'' then some ([], rest)
    else if c = '\n' then none
    else if c = '\r' then none
    else if c = '\\' then
      match rest with
      | [] => none
      | e :: rest2 =>
        match scanSingleQuoted rest2 with
        | some (v, r) => some (jsEscMap e :: v, r)
        | none => none
    else
      match scanSingleQuoted rest with
      | some (v, r) => some (c :: v, r)
      | none => none

/-- The value a JavaScript engine stores under `auth_token` when executing
a generated token-assignment script, when the script is exactly one such
assignment. -/
def storedTokenOfScript (script : String) : Option String :=
  match stripPrefixL tokenScriptPre.data script.data with
  | none => none
  | some afterPre =>
    match scanSingleQuoted afterPre with
    | none => none
    | some (v, r) => if r = [')', ';'] then some ⟨v⟩ else none

/-! ## Effect classification used in the dispatcher claims -/

def isLogEffect : Effect → Bool
  | .log _ => true
  | _ => false

def isShareEffect : Effect → Bool
  | .shareOS _ _ => true
  | _ => false

/-- The string the `switch` scrutinises, when it is a string: `message.type`
of a successfully parsed message. -/
def msgType (msg : JValue) : Option String :=
  match getProp msg "type" with
  | .ok (some (.jstr ty)) => some ty
  | _ => none

/-- The message kinds `handleWebViewMessage` recognises. -/
def knownTypes : List String :=
  ["AUTH_TOKEN", "LOGOUT", "SHARE", "OPEN_EXTERNAL", "NAVIGATE"]

/-! ## Helper lemmas -/

theorem stripPrefixL_append (p r : List Char) : stripPrefixL p (p ++ r) = some r := by
  induction p with
  | nil => rfl
  | cons c cs ih => simp [stripPrefixL, ih]

theorem dropWhile_head_false {α} (p : α → Bool) (l : List α) (c : α) (tl : List α)
    (h : l.dropWhile p = c :: tl) : p c = false := by
  induction l with
  | nil => cases h
  | cons a as ih =>
    rw [List.dropWhile_cons] at h
    by_cases hp : p a = true
    · exact ih (by simpa [hp] using h)
    · simp [hp] at h
      obtain ⟨h1, _⟩ := h
      subst h1
      simpa using hp

theorem splitScheme_eq_append {l pre rest : List Char}
    (h : splitScheme l = some (pre, rest)) : l = pre ++ ':' :: rest := by
  unfold splitScheme at h
  rcases hd : l.dropWhile notColon with _ | ⟨c, tl⟩ <;> rw [hd] at h
  · cases h
  · by_cases hc : c = ':'
    · subst hc
      cases hv : validSchemeChars (l.takeWhile notColon) <;> rw [hv] at h
      · simp at h
      · simp at h
        obtain ⟨h1, h2⟩ := h
        subst h2
        rw [← h1]
        conv_lhs => rw [← List.takeWhile_append_dropWhile (p := notColon) (l := l)]
        rw [hd]
    · exfalso
      have hhead := dropWhile_head_false notColon l c tl hd
      simp [notColon] at hhead
      exact hc hhead

theorem parseURL_data_structure {s : String} {r : URLRec} (h : parseURL s = some r) :
    ∃ rest, s.data = r.scheme.data ++ ':' :: rest := by
  unfold parseURL at h
  rcases hs : splitScheme s.data with _ | ⟨sch, rest⟩ <;> rw [hs] at h
  · cases h
  · rcases ho : hostAfterScheme ⟨sch⟩ rest with _ | host <;> simp [ho] at h
    refine ⟨rest, ?_⟩
    rw [← h]
    exact splitScheme_eq_append hs

theorem head_of_startsWith {s p : String} {d : Char} {ds : List Char}
    (hp : p.data = d :: ds) (h : strStartsWith s p = true) :
    ∃ tail, s.data = d :: tail := by
  unfold strStartsWith at h
  rw [hp] at h
  rcases hd : s.data with _ | ⟨a, tail⟩ <;> rw [hd] at h
  · simp [List.isPrefixOf] at h
  · simp [List.isPrefixOf] at h
    exact ⟨tail, by rw [h.1]⟩

theorem startsWith_false_of_head {s : String} {c : Char} {tail : List Char}
    (hdata : s.data = c :: tail) (p : String) (d : Char) (ds : List Char)
    (hp : p.data = d :: ds) (hne : (d == c) = false) : strStartsWith s p = false := by
  simp only [strStartsWith, hdata, hp, List.isPrefixOf, hne, Bool.false_and]

theorem classify_ne_external_iff (appDomain apiDomain hostname : String) :
    classify appDomain apiDomain hostname ≠ .EXTERNAL ↔
      isTrustedRequest appDomain apiDomain hostname = true := by
  unfold classify isTrustedRequest
  split_ifs with h1 h2 h3 h4 h5 <;> simp_all [Bool.or_eq_true, not_or]

theorem scanSingleQuoted_clean (l r : List Char)
    (h : ∀ c ∈ l, c ≠ '\'' ∧ c ≠ '\\' ∧ c ≠ '\n' ∧ c ≠ '\r') :
    scanSingleQuoted (l ++ '\'' :: r) = some (l, r) := by
  induction l with
  | nil =>
    rw [scanSingleQuoted.eq_def]
    simp
  | cons c cs ih =>
    obtain ⟨h1, h2, h3, h4⟩ := h c (by simp)
    have ih' := ih (fun c' hc' => h c' (by simp [hc']))
    rw [List.cons_append, scanSingleQuoted.eq_def]
    simp [h1, h2, h3, h4, ih']

/-! ## Claim theorems -/

/-- C1: for every configuration and URL that parses with scheme http or
https, if the domain classifier places the URL's hostname in SAME_ORIGIN or
TRUSTED (relative to the `www.`-stripped application and API domains and
the built-in allow-lists), the navigation decision is LOAD_INTERNAL:
`shouldStartLoadWithRequest` returns `true` and performs no external-open
side effect. -/
theorem trusted_http_loads_internal (cfg : Config) (u : String) (r appUrl apiUrl : URLRec)
    (hu : parseURL u = some r)
    (ha : parseURL cfg.webAppUrl = some appUrl)
    (hb : parseURL cfg.apiUrl = some apiUrl)
    (hs : r.scheme = "http" ∨ r.scheme = "https")
    (hc : classify (stripWww appUrl.hostname) (stripWww apiUrl.hostname) r.hostname
      ≠ .EXTERNAL) :
    shouldStartLoadWithRequest cfg u = (true, []) := by
  obtain ⟨rest, hdata⟩ := parseURL_data_structure hu
  have hhead : ∃ tail, u.data = 'h' :: tail := by
    rcases hs with h | h <;> rw [h] at hdata
    · exact ⟨_, by rw [hdata]; rfl⟩
    · exact ⟨_, by rw [hdata]; rfl⟩
  obtain ⟨tail, htail⟩ := hhead
  have hAbout := startsWith_false_of_head htail "about:" 'a' ['b','o','u','t',':']
    rfl (by decide)
  have hBlob := startsWith_false_of_head htail "blob:" 'b' ['l','o','b',':'] rfl (by decide)
  have hData := startsWith_false_of_head htail "data:" 'd' ['a','t','a',':'] rfl (by decide)
  have hTel := startsWith_false_of_head htail "tel:" 't' ['e','l',':'] rfl (by decide)
  have hMailto := startsWith_false_of_head htail "mailto:" 'm' ['a','i','l','t','o',':']
    rfl (by decide)
  have hSms := startsWith_false_of_head htail "sms:" 's' ['m','s',':'] rfl (by decide)
  have htr := (classify_ne_external_iff _ _ _).mp hc
  unfold shouldStartLoadWithRequest
  rw [hAbout, hBlob, hData, hTel, hMailto, hSms, hu, ha, hb]
  simp [htr]

/-- C1 witness: the spec's end-to-end example — the Stripe checkout URL
under the production configuration stays in the surface. -/
theorem trusted_http_loads_internal_witness :
    shouldStartLoadWithRequest prodConfig "https://checkout.stripe.com/pay/xyz" = (true, []) :=
  trusted_http_loads_internal prodConfig "https://checkout.stripe.com/pay/xyz"
    ⟨"https", "checkout.stripe.com"⟩ ⟨"https", "trustbuild.uk"⟩ ⟨"https", "api.trustbuild.uk"⟩
    rfl rfl rfl (Or.inr rfl) (by decide)

/-- C2: trusted-domain matching is suffix-exact on dot-separated labels,
not bare substring: a hostname matches a domain exactly when it equals the
domain or decomposes as some prefix followed by `.` and the domain; in
particular `evilapp.com` against application domain `app.com` classifies
EXTERNAL and the navigation decision for `https://evilapp.com` is
delegation to the OS, not LOAD_INTERNAL. -/
theorem hostMatches_suffix_exact :
    (∀ h d : String, hostMatches h d = true ↔
      h = d ∨ ∃ pre : List Char, pre ++ '.' :: d.data = h.data) ∧
    classify "app.com" "api.app.com" "evilapp.com" = .EXTERNAL ∧
    shouldStartLoadWithRequest ⟨"https://app.com", "https://api.app.com"⟩ "https://evilapp.com"
      = (false, [Effect.openURL "https://evilapp.com"]) := by
  refine ⟨?_, by decide, by decide⟩
  intro h d
  unfold hostMatches strEndsWith
  rw [Bool.or_eq_true, beq_iff_eq, List.isSuffixOf_iff_suffix]
  constructor
  · rintro (heq | ⟨pre, hpre⟩)
    · exact Or.inl heq
    · refine Or.inr ⟨pre, ?_⟩
      rw [← hpre, String.data_append]
      rfl
  · rintro (heq | ⟨pre, hpre⟩)
    · exact Or.inl heq
    · refine Or.inr ⟨pre, ?_⟩
      rw [String.data_append]
      exact hpre

/-- C3 counterexample: `http:twitter.com` parses as an http URL with the
untrusted hostname `twitter.com` (the WHATWG parser tolerates missing
slashes after a special scheme), yet the decision is LOAD_INTERNAL with no
external-open side effect, because the delegation branch keys on a literal
`http://`/`https://` string prefix rather than the parsed scheme. -/
theorem untrusted_http_no_slash_loads_internal :
    parseURL "http:twitter.com" = some ⟨"http", "twitter.com"⟩ ∧
    classify "trustbuild.uk" "api.trustbuild.uk" "twitter.com" = .EXTERNAL ∧
    shouldStartLoadWithRequest prodConfig "http:twitter.com" = (true, []) :=
  ⟨rfl, rfl, by decide⟩

/-- C3 (amended): for every URL that begins with the literal prefix
`http://` or `https://`, parses, and whose hostname the classifier marks
EXTERNAL, the decision is DELEGATE_EXTERNAL: the OS open handler is
invoked with exactly the request URL and the hook returns `false`,
suppressing the in-surface navigation. -/
theorem untrusted_http_delegates_external (cfg : Config) (u : String) (r appUrl apiUrl : URLRec)
    (hu : parseURL u = some r)
    (ha : parseURL cfg.webAppUrl = some appUrl)
    (hb : parseURL cfg.apiUrl = some apiUrl)
    (hpre : strStartsWith u "http://" = true ∨ strStartsWith u "https://" = true)
    (hc : classify (stripWww appUrl.hostname) (stripWww apiUrl.hostname) r.hostname
      = .EXTERNAL) :
    shouldStartLoadWithRequest cfg u = (false, [Effect.openURL u]) := by
  have hhead : ∃ tail, u.data = 'h' :: tail := by
    rcases hpre with h | h
    · exact head_of_startsWith (show ("http://" : String).data
        = 'h' :: ['t','t','p',':','/','/'] from rfl) h
    · exact head_of_startsWith (show ("https://" : String).data
        = 'h' :: ['t','t','p','s',':','/','/'] from rfl) h
  obtain ⟨tail, htail⟩ := hhead
  have hAbout := startsWith_false_of_head htail "about:" 'a' ['b','o','u','t',':']
    rfl (by decide)
  have hBlob := startsWith_false_of_head htail "blob:" 'b' ['l','o','b',':'] rfl (by decide)
  have hData := startsWith_false_of_head htail "data:" 'd' ['a','t','a',':'] rfl (by decide)
  have hTel := startsWith_false_of_head htail "tel:" 't' ['e','l',':'] rfl (by decide)
  have hMailto := startsWith_false_of_head htail "mailto:" 'm' ['a','i','l','t','o',':']
    rfl (by decide)
  have hSms := startsWith_false_of_head htail "sms:" 's' ['m','s',':'] rfl (by decide)
  have htr : isTrustedRequest (stripWww appUrl.hostname) (stripWww apiUrl.hostname)
      r.hostname = false := by
    cases htr' : isTrustedRequest (stripWww appUrl.hostname) (stripWww apiUrl.hostname)
      r.hostname
    · rfl
    · exact absurd hc (by
        have := (classify_ne_external_iff (stripWww appUrl.hostname)
          (stripWww apiUrl.hostname) r.hostname).mpr htr'
        exact this)
  unfold shouldStartLoadWithRequest
  rw [hAbout, hBlob, hData, hTel, hMailto, hSms, hu, ha, hb]
  rcases hpre with h | h <;> simp [htr, h]

/-- C3 (amended) witness: the spec's example `https://twitter.com/share`
under the production configuration is delegated to the OS with that exact
URL. -/
theorem untrusted_http_delegates_external_witness :
    shouldStartLoadWithRequest prodConfig "https://twitter.com/share"
      = (false, [Effect.openURL "https://twitter.com/share"]) :=
  untrusted_http_delegates_external prodConfig "https://twitter.com/share"
    ⟨"https", "twitter.com"⟩ ⟨"https", "trustbuild.uk"⟩ ⟨"https", "api.trustbuild.uk"⟩
    rfl rfl rfl (Or.inr rfl) (by decide)

/-- C4: a URL string that does not begin with a whitelisted scheme
(`about:`, `blob:`, `data:`) or device-handler scheme (`tel:`, `mailto:`,
`sms:`) and fails to parse is allowed to load (fail open): the hook returns
`true` and the only side effect is the warning log — no external open. -/
theorem unparseable_url_fails_open (cfg : Config) (u : String)
    (h1 : strStartsWith u "about:" = false) (h2 : strStartsWith u "blob:" = false)
    (h3 : strStartsWith u "data:" = false) (h4 : strStartsWith u "tel:" = false)
    (h5 : strStartsWith u "mailto:" = false) (h6 : strStartsWith u "sms:" = false)
    (hp : parseURL u = none) :
    shouldStartLoadWithRequest cfg u = (true, [Effect.log "Failed to parse URL"]) := by
  unfold shouldStartLoadWithRequest
  rw [h1, h2, h3, h4, h5, h6, hp]
  simp

/-- C4 witness: the string `not a url` takes the fail-open path. -/
theorem unparseable_url_fails_open_witness :
    shouldStartLoadWithRequest prodConfig "not a url"
      = (true, [Effect.log "Failed to parse URL"]) :=
  unparseable_url_fails_open prodConfig "not a url"
    rfl rfl rfl rfl rfl rfl rfl

/-- C5: dispatch never throws (`handleWebViewMessage` is a total function
whose `catch` arm absorbs every exception), and a raw message that fails to
parse as JSON, or parses to a message whose type is not a known kind,
leaves the shell state — including the in-memory token mirror — unchanged
and performs no side effect other than logging. -/
theorem dispatch_malformed_or_unknown_only_logs (f : Faults) (st : ShellState) (raw : String)
    (h : jsonParse raw = none ∨
      ∃ msg, jsonParse raw = some msg ∧ ∀ ty ∈ knownTypes, msgType msg ≠ some ty) :
    (handleWebViewMessage f st raw).1 = st ∧
    (handleWebViewMessage f st raw).2.all isLogEffect = true := by
  rcases h with hnone | ⟨msg, hsome, hunk⟩
  · unfold handleWebViewMessage
    rw [hnone]
    exact ⟨rfl, rfl⟩
  · unfold handleWebViewMessage
    rw [hsome]
    unfold handleParsedMessage
    rcases hmt : getProp msg "type" with e | t
    · simp [hmt, isLogEffect]
    · rcases t with _ | v
      · simp [hmt, isLogEffect]
      · rcases v with _ | b | raw' | ty | es | fs
        · simp [hmt, isLogEffect]
        · simp [hmt, isLogEffect]
        · simp [hmt, isLogEffect]
        · have hty : msgType msg = some ty := by unfold msgType; rw [hmt]
          have hne : ∀ k ∈ knownTypes, (ty == k) = false := by
            intro k hk
            have := hunk k hk
            rw [hty] at this
            simp at this
            simp [this]
          simp [hmt, isLogEffect, hne "AUTH_TOKEN" (by simp [knownTypes]),
                hne "LOGOUT" (by simp [knownTypes]),
                hne "SHARE" (by simp [knownTypes]),
                hne "OPEN_EXTERNAL" (by simp [knownTypes]),
                hne "NAVIGATE" (by simp [knownTypes])]
        · simp [hmt, isLogEffect]
        · simp [hmt, isLogEffect]

/-- C5 witness: the input `not json` is not JSON; dispatch leaves the state
unchanged and only logs. -/
theorem dispatch_malformed_or_unknown_only_logs_witness :
    (handleWebViewMessage noFaults st0 "not json").1 = st0 ∧
    (handleWebViewMessage noFaults st0 "not json").2.all isLogEffect = true :=
  dispatch_malformed_or_unknown_only_logs noFaults st0 "not json" (Or.inl rfl)

/-- C6: dispatching a LOGOUT envelope clears the secure store (auth and
refresh token keys), the general store (user data and push token keys) and
nulls the in-memory token mirror; each key whose underlying delete does not
fail is cleared and the mirror is nulled regardless of any store failure —
a failure in one store never blocks clearing the other store or the
mirror. -/
theorem dispatch_logout_clears_all_stores (f : Faults) (st : ShellState) :
    (handleWebViewMessage f st "\x7b\"type\":\"LOGOUT\"\x7d").1.authToken = none ∧
    (f.failDeleteAuth = false →
      (handleWebViewMessage f st "\x7b\"type\":\"LOGOUT\"\x7d").1.stores.secureAuth = none) ∧
    (f.failDeleteRefresh = false →
      (handleWebViewMessage f st "\x7b\"type\":\"LOGOUT\"\x7d").1.stores.secureRefresh = none) ∧
    (f.failRemoveUser = false →
      (handleWebViewMessage f st "\x7b\"type\":\"LOGOUT\"\x7d").1.stores.userData = none) ∧
    (f.failRemovePush = false →
      (handleWebViewMessage f st "\x7b\"type\":\"LOGOUT\"\x7d").1.stores.pushToken = none) := by
  have hparse : jsonParse "\x7b\"type\":\"LOGOUT\"\x7d"
      = some (.jobj [("type", .jstr "LOGOUT")]) := rfl
  unfold handleWebViewMessage
  rw [hparse]
  unfold handleParsedMessage
  refine ⟨?_, ?_, ?_, ?_, ?_⟩ <;>
    simp [getProp, objGet, secureStorageClearAll, appStorageClearAll] <;>
    intro h <;> simp [h]

/-- C6 witness: with the auth-token delete failing, LOGOUT still clears the
refresh token, both general-store keys, and the in-memory mirror. -/
theorem dispatch_logout_clears_all_stores_witness :
    (handleWebViewMessage ⟨false, true, false, false, false⟩ st0
      "\x7b\"type\":\"LOGOUT\"\x7d").1.authToken = none ∧
    (handleWebViewMessage ⟨false, true, false, false, false⟩ st0
      "\x7b\"type\":\"LOGOUT\"\x7d").1.stores.secureRefresh = none ∧
    (handleWebViewMessage ⟨false, true, false, false, false⟩ st0
      "\x7b\"type\":\"LOGOUT\"\x7d").1.stores.userData = none ∧
    (handleWebViewMessage ⟨false, true, false, false, false⟩ st0
      "\x7b\"type\":\"LOGOUT\"\x7d").1.stores.pushToken = none :=
  ⟨(dispatch_logout_clears_all_stores ⟨false, true, false, false, false⟩ st0).1,
   (dispatch_logout_clears_all_stores ⟨false, true, false, false, false⟩ st0).2.2.1 rfl,
   (dispatch_logout_clears_all_stores ⟨false, true, false, false, false⟩ st0).2.2.2.1 rfl,
   (dispatch_logout_clears_all_stores ⟨false, true, false, false, false⟩ st0).2.2.2.2 rfl⟩

/-- C7 counterexample: dispatching a SHARE envelope carrying a url produces
exactly one console log and no OS-share invocation — the handler is a stub
(`Share functionality would go here`), so the payload is never forwarded to
the host's native sharing facility. -/
theorem dispatch_share_is_stub :
    handleWebViewMessage noFaults st0
      "\x7b\"type\":\"SHARE\",\"payload\":\x7b\"url\":\"https://x.com\"\x7d\x7d"
      = (st0, [Effect.log "Share requested"]) ∧
    (handleWebViewMessage noFaults st0
      "\x7b\"type\":\"SHARE\",\"payload\":\x7b\"url\":\"https://x.com\"\x7d\x7d").2.all
      (fun e => !isShareEffect e) = true :=
  ⟨rfl, rfl⟩

/-- C7 (amended): dispatching a SHARE envelope never reaches the host's
native sharing facility and never changes shell state: with a truthy url or
text field it only logs the request, and with neither field it is a
complete no-op. -/
theorem dispatch_share_only_logs (f : Faults) (st : ShellState) (p : JValue) :
    (dispatchValue f st (.jobj [("type", .jstr "SHARE"), ("payload", p)])).1 = st ∧
    (dispatchValue f st (.jobj [("type", .jstr "SHARE"), ("payload", p)])).2.all
      (fun e => !isShareEffect e) = true ∧
    (truthy (optChain (some p) "url") = false → truthy (optChain (some p) "text") = false →
      (dispatchValue f st (.jobj [("type", .jstr "SHARE"), ("payload", p)])).2 = []) := by
  have hty : getProp (JValue.jobj [("type", .jstr "SHARE"), ("payload", p)]) "type"
      = .ok (some (.jstr "SHARE")) := rfl
  have hp : optChain (some (JValue.jobj [("type", .jstr "SHARE"), ("payload", p)])) "payload"
      = some p := rfl
  unfold dispatchValue handleParsedMessage
  rw [hty]
  rcases hu : truthy (optChain (some p) "url") with _ | _ <;>
    rcases ht : truthy (optChain (some p) "text") with _ | _ <;>
      simp [hp, hu, ht, isShareEffect]

/-- C7 (amended) witness: a SHARE envelope with an empty payload object is
a complete no-op. -/
theorem dispatch_share_only_logs_witness :
    (dispatchValue noFaults st0 (.jobj [("type", .jstr "SHARE"), ("payload", .jobj [])])).2
      = [] :=
  (dispatch_share_only_logs noFaults st0 (.jobj [])).2.2 rfl rfl

/-- C10: an AUTH_TOKEN envelope whose payload is absent, null, or lacks a
non-empty token string is a no-op apart from logging: the shell state
(secure store and in-memory mirror) is unchanged and no storage-write or
push-registration effect is emitted — those side effects can occur only
when `payload.token` is a non-empty string. -/
theorem dispatch_auth_token_requires_token (f : Faults) (st : ShellState) (msg : JValue)
    (hty : getProp msg "type" = .ok (some (.jstr "AUTH_TOKEN")))
    (htok : ∀ s : String,
      optChain (optChain (some msg) "payload") "token" = some (.jstr s) → s = "") :
    (dispatchValue f st msg).1 = st ∧
    (dispatchValue f st msg).2.all isLogEffect = true := by
  unfold dispatchValue handleParsedMessage handleAuthToken
  rw [hty]
  rcases htv : optChain (optChain (some msg) "payload") "token" with _ | v
  · simp [htv, truthy]
  · rcases v with _ | b | raw' | s | es | fs
    · simp [htv, truthy]
    · rcases b with _ | _
      · simp [htv, truthy]
      · simp [htv, truthy, isLogEffect]
    · rcases hjn : jnumTruthy raw' with _ | _ <;>
        simp [htv, truthy, hjn, isLogEffect]
    · have hs : s = "" := htok s htv
      subst hs
      simp [htv, truthy]
    · simp [htv, truthy, isLogEffect]
    · simp [htv, truthy, isLogEffect]

/-- C10 witness: an AUTH_TOKEN envelope with no payload at all is a no-op. -/
theorem dispatch_auth_token_requires_token_witness :
    (dispatchValue noFaults st0 (.jobj [("type", .jstr "AUTH_TOKEN")])).1 = st0 ∧
    (dispatchValue noFaults st0 (.jobj [("type", .jstr "AUTH_TOKEN")])).2.all
      isLogEffect = true :=
  dispatch_auth_token_requires_token noFaults st0 (.jobj [("type", .jstr "AUTH_TOKEN")])
    rfl (fun s hs => by simp [optChain, objGet] at hs)

/-- C8 counterexample: after the bridge script runs twice in one page
context, a single write of the auth token posts two AUTH_TOKEN envelopes —
one per wrapping layer — rather than exactly one: the script has no
re-execution guard, so the second run wraps the already-wrapped setter. -/
theorem bridge_double_injection_double_post :
    runSetItem (injectBridge (injectBridge .base)) "auth_token" "tok"
      = [.postAuthToken "tok", .postAuthToken "tok", .storageWrite "auth_token" "tok"] ∧
    (runSetItem (injectBridge (injectBridge .base)) "auth_token" "tok").countP isAuthPost
      ≠ 1 :=
  ⟨rfl, by decide⟩

/-- C8 (amended): each execution of the bridge script within one page
context adds one forwarding layer: after n executions, a write of the auth
token posts exactly n AUTH_TOKEN envelopes while performing the underlying
storage write exactly once, and a removal posts exactly n LOGOUT envelopes
with exactly one underlying removal (so the once-per-context execution of
the normal page lifecycle forwards exactly one envelope per operation). -/
theorem bridge_injection_layer_counts (n : Nat) (v : String) :
    (runSetItem (iterInject n .base) "auth_token" v).countP isAuthPost = n ∧
    (runSetItem (iterInject n .base) "auth_token" v).countP isStorageWrite = 1 ∧
    (runRemoveItem (iterInject n .base) "auth_token").countP isLogoutPost = n ∧
    (runRemoveItem (iterInject n .base) "auth_token").countP isStorageRemove = 1 := by
  induction n with
  | zero =>
    simp [iterInject, runSetItem, runRemoveItem, List.countP_cons, List.countP_nil,
      isAuthPost, isStorageWrite, isLogoutPost, isStorageRemove]
  | succ n ih =>
    obtain ⟨ih1, ih2, ih3, ih4⟩ := ih
    simp [iterInject, injectBridge, runSetItem, runRemoveItem, List.countP_cons,
      ih1, ih2, ih3, ih4, isAuthPost, isStorageWrite, isLogoutPost, isStorageRemove]

/-- C9 counterexample: the stored token is spliced verbatim into the
generated re-injection script with no escaping; for the token `a'b` the
quote inside the token terminates the string literal early, so the
generated program is not a single assignment storing `a'b` — the value
`a'b` is not what the script stores. -/
theorem token_injection_unescaped :
    buildTokenInjection "a'b" = "localStorage.setItem('auth_token', 'a'b');" ∧
    storedTokenOfScript (buildTokenInjection "a'b") = none :=
  ⟨rfl, rfl⟩

/-- C9 (amended): the interpolation into the injected program text is
verbatim, with no escaping/encoding step; the generated load-end script
assigns exactly the stored token only for tokens containing no single
quote, backslash, or line terminator. -/
theorem token_injection_roundtrip_clean (t : String)
    (h : ∀ c ∈ t.data, c ≠ '\'' ∧ c ≠ '\\' ∧ c ≠ '\n' ∧ c ≠ '\r') :
    storedTokenOfScript (buildTokenInjection t) = some t := by
  obtain ⟨td⟩ := t
  unfold storedTokenOfScript buildTokenInjection
  have hd : (tokenScriptPre ++ String.mk td ++ "');").data
      = tokenScriptPre.data ++ (td ++ '\'' :: [')', ';']) := by
    rw [String.data_append, String.data_append, List.append_assoc]
  rw [hd, stripPrefixL_append]
  simp [scanSingleQuoted_clean td [')', ';'] h]

/-- C9 (amended) witness: a token of plain alphanumeric characters
round-trips exactly. -/
theorem token_injection_roundtrip_clean_witness :
    storedTokenOfScript (buildTokenInjection "abc123") = some "abc123" :=
  token_injection_roundtrip_clean "abc123" (by decide)

end TrustBuild
